import Mathlib

/-!
Verification of the CONFLUENCE SUMMA preprocessing utilities.

The definitions below are shallow embeddings of the Python functions in
src/utils/models_utils/summa_utils.py and
src/utils/dataHandling_utils/data_utils.py of the CONFLUENCE repository.
Quantities the code manipulates exactly (weights, elevations, temperatures,
lapse rates) are modelled as rationals; geometric quantities fed through
numpy sqrt are modelled as reals; pixel counts are naturals.  Fallible
operations (pandas loc lookups that raise KeyError on missing labels)
return Option.
-/

namespace Confluence

/-- Maximum of a list of integers, with 0 for the empty list (the code only
ever takes the maximum of nonempty histograms, mirroring numpy max). -/
def listMax : List ℤ → ℤ
  | [] => 0
  | [x] => x
  | x :: y :: ys => max x (listMax (y :: ys))

/-- First index attaining the maximum of a list, mirroring numpy argmax,
which returns the first occurrence of the maximal value. -/
def argmaxFirst : List ℤ → Nat
  | [] => 0
  | [_] => 0
  | x :: y :: ys => if listMax (y :: ys) ≤ x then 0 else argmaxFirst (y :: ys) + 1

theorem le_listMax : ∀ (l : List ℤ), ∀ x ∈ l, x ≤ listMax l
  | [a], x, hx => by
    simp only [List.mem_singleton] at hx
    simp [hx, listMax]
  | a :: b :: ys, x, hx => by
    rcases List.mem_cons.mp hx with h | h
    · simp [h, listMax]
    · have := le_listMax (b :: ys) x h
      simp only [listMax]
      exact le_trans this (le_max_right _ _)

theorem argmaxFirst_lt_length : ∀ (l : List ℤ), l ≠ [] → argmaxFirst l < l.length
  | [_], _ => by simp [argmaxFirst]
  | a :: b :: ys, _ => by
    by_cases h : listMax (b :: ys) ≤ a
    · simp [argmaxFirst, h]
    · have ih := argmaxFirst_lt_length (b :: ys) (by simp)
      simp only [List.length_cons] at ih ⊢
      simp only [argmaxFirst, if_neg h]
      omega

theorem getD_argmaxFirst : ∀ (l : List ℤ), l ≠ [] → l.getD (argmaxFirst l) 0 = listMax l
  | [_], _ => by simp [argmaxFirst, listMax]
  | a :: b :: ys, _ => by
    by_cases h : listMax (b :: ys) ≤ a
    · simp [argmaxFirst, h, listMax, max_eq_left h]
    · have ih := getD_argmaxFirst (b :: ys) (by simp)
      push_neg at h
      simp only [argmaxFirst, if_neg (not_le.mpr h), listMax]
      rw [max_eq_right h.le]
      simpa using ih

theorem getD_lt_listMax_of_lt_argmaxFirst :
    ∀ (l : List ℤ) (i : Nat), i < argmaxFirst l → l.getD i 0 < listMax l
  | [_], i, hi => by simp [argmaxFirst] at hi
  | a :: b :: ys, i, hi => by
    by_cases h : listMax (b :: ys) ≤ a
    · simp [argmaxFirst, h] at hi
    · push_neg at h
      simp only [argmaxFirst, if_neg (not_le.mpr h)] at hi
      simp only [listMax]
      rw [max_eq_right h.le]
      cases i with
      | zero => simpa using h
      | succ j =>
        have := getD_lt_listMax_of_lt_argmaxFirst (b :: ys) j (by omega)
        simpa using this

theorem getD_range_map {β : Type} [Inhabited β] (n : Nat) (f : Nat → β) (j : Nat)
    (hj : j < n) (d : β) : (((List.range n).map f).getD j d) = f j := by
  rw [List.getD_eq_getElem _ _ (by simpa using hj)]
  simp

/-! ## Soil class insertion (summa_utils.py, insert_soil_class, lines 1774-1798)

The function reads, for each HRU, the pixel counts stored in columns
USDA_0 .. USDA_12 of the soil intersection shapefile (a column absent from
the shapefile contributes count 0), overwrites entry 0 of the histogram
with -1 because class 0 means no data, takes the numpy argmax, and then:
if the histogram maximum is 0 it assigns sentinel class 5 with a warning;
else if the shapefile column value at the argmax disagrees with the
histogram entry it assigns -999 with a warning; else it assigns the argmax
index.  The per-HRU counts are modelled as a function from class index to
pixel count. -/

/-- Thirteen-wide histogram built by insert_soil_class, with entry 0
overwritten by -1 (tmp_hist[0] = -1). -/
def soilHist (counts : Nat → ℕ) : List ℤ :=
  (List.range 13).map (fun j => if j = 0 then -1 else (counts j : ℤ))

/-- Soil class assigned to one HRU by insert_soil_class. -/
def insertSoilClass (counts : Nat → ℕ) : ℤ :=
  let h := soilHist counts
  let sc := argmaxFirst h
  if listMax h = 0 then 5
  else if (counts sc : ℤ) ≠ h.getD sc 0 then -999
  else (sc : ℤ)

/-- Number of warnings insert_soil_class logs for one HRU: one when every
valid class count is zero, one when the index and mode disagree. -/
def insertSoilClassWarnings (counts : Nat → ℕ) : Nat :=
  let h := soilHist counts
  let sc := argmaxFirst h
  if listMax h = 0 then 1
  else if (counts sc : ℤ) ≠ h.getD sc 0 then 1
  else 0

theorem soilHist_length (counts : Nat → ℕ) : (soilHist counts).length = 13 := by
  simp [soilHist]

theorem soilHist_getD (counts : Nat → ℕ) (j : Nat) (hj : j < 13) :
    (soilHist counts).getD j 0 = if j = 0 then -1 else (counts j : ℤ) :=
  getD_range_map 13 _ j hj 0

theorem soilHist_ne_nil (counts : Nat → ℕ) : soilHist counts ≠ [] := by
  intro h
  have := soilHist_length counts
  rw [h] at this
  simp at this

/-- The argmax of the soil histogram lies in 1..12 and attains the
(positive) maximum whenever some valid class has pixels. -/
theorem soilHist_argmax_spec (counts : Nat → ℕ)
    (hpos : ∃ j, 1 ≤ j ∧ j ≤ 12 ∧ 0 < counts j) :
    1 ≤ argmaxFirst (soilHist counts) ∧ argmaxFirst (soilHist counts) ≤ 12 ∧
      (counts (argmaxFirst (soilHist counts)) : ℤ) = listMax (soilHist counts) ∧
      0 < listMax (soilHist counts) := by
  obtain ⟨j, hj1, hj2, hjpos⟩ := hpos
  have hmem : ((counts j : ℤ)) ∈ soilHist counts := by
    have hgd : (soilHist counts).getD j 0 = (counts j : ℤ) := by
      rw [soilHist_getD counts j (by omega)]
      rw [if_neg (by omega : ¬ j = 0)]
    rw [List.getD_eq_getElem _ _ (by rw [soilHist_length]; omega)] at hgd
    rw [← hgd]
    exact List.getElem_mem _
  have hmaxpos : 0 < listMax (soilHist counts) := by
    have := le_listMax (soilHist counts) _ hmem
    have hc : (0 : ℤ) < (counts j : ℤ) := by exact_mod_cast hjpos
    omega
  have hlt : argmaxFirst (soilHist counts) < 13 := by
    have := argmaxFirst_lt_length (soilHist counts) (soilHist_ne_nil counts)
    rwa [soilHist_length] at this
  have hmax := getD_argmaxFirst (soilHist counts) (soilHist_ne_nil counts)
  have hsc0 : argmaxFirst (soilHist counts) ≠ 0 := by
    intro h0
    rw [h0, soilHist_getD counts 0 (by omega)] at hmax
    simp at hmax
    omega
  refine ⟨by omega, by omega, ?_, hmaxpos⟩
  rw [soilHist_getD counts _ hlt, if_neg hsc0] at hmax
  exact hmax

theorem listMax_le : ∀ (l : List ℤ) (c : ℤ), l ≠ [] → (∀ x ∈ l, x ≤ c) → listMax l ≤ c
  | [a], c, _, h => by simpa [listMax] using h a (by simp)
  | a :: b :: ys, c, _, h => by
    have ih := listMax_le (b :: ys) c (by simp) (fun x hx => h x (List.mem_cons_of_mem _ hx))
    simp only [listMax]
    exact max_le (h a (by simp)) ih

/-- When some valid soil class has pixels, insert_soil_class returns the
first index attaining the maximal count over classes 1..12, and logs no
warning. -/
theorem insertSoilClass_pos (counts : Nat → ℕ)
    (hpos : ∃ j, 1 ≤ j ∧ j ≤ 12 ∧ 0 < counts j) :
    insertSoilClass counts = (argmaxFirst (soilHist counts) : ℤ) ∧
      1 ≤ argmaxFirst (soilHist counts) ∧ argmaxFirst (soilHist counts) ≤ 12 ∧
      (∀ j, 1 ≤ j → j ≤ 12 → counts j ≤ counts (argmaxFirst (soilHist counts))) ∧
      (∀ j, 1 ≤ j → j < argmaxFirst (soilHist counts) →
        counts j < counts (argmaxFirst (soilHist counts))) ∧
      insertSoilClassWarnings counts = 0 := by
  obtain ⟨h1, h2, hval, hmaxpos⟩ := soilHist_argmax_spec counts hpos
  have hne : ¬ listMax (soilHist counts) = 0 := by omega
  have hnomis : ¬ ((counts (argmaxFirst (soilHist counts)) : ℤ)
      ≠ (soilHist counts).getD (argmaxFirst (soilHist counts)) 0) := by
    rw [soilHist_getD counts _ (by omega), if_neg (by omega : ¬ argmaxFirst (soilHist counts) = 0)]
    simp
  have hmaxle : ∀ j, 1 ≤ j → j ≤ 12 → counts j ≤ counts (argmaxFirst (soilHist counts)) := by
    intro j hj1 hj2
    have hmem : ((counts j : ℤ)) ∈ soilHist counts := by
      have hgd : (soilHist counts).getD j 0 = (counts j : ℤ) := by
        rw [soilHist_getD counts j (by omega), if_neg (by omega : ¬ j = 0)]
      rw [List.getD_eq_getElem _ _ (by rw [soilHist_length]; omega)] at hgd
      rw [← hgd]
      exact List.getElem_mem _
    have := le_listMax (soilHist counts) _ hmem
    rw [← hval] at this
    exact_mod_cast this
  have hfirst : ∀ j, 1 ≤ j → j < argmaxFirst (soilHist counts) →
      counts j < counts (argmaxFirst (soilHist counts)) := by
    intro j hj1 hj2
    have hlt := getD_lt_listMax_of_lt_argmaxFirst (soilHist counts) j hj2
    rw [soilHist_getD counts j (by omega), if_neg (by omega : ¬ j = 0), ← hval] at hlt
    exact_mod_cast hlt
  refine ⟨?_, h1, h2, hmaxle, hfirst, ?_⟩
  · simp only [insertSoilClass, if_neg hne, if_neg hnomis]
  · simp only [insertSoilClassWarnings, if_neg hne, if_neg hnomis]

/-- When every valid soil class count is zero, insert_soil_class assigns
sentinel class 5 and logs one warning. -/
theorem insertSoilClass_zero (counts : Nat → ℕ)
    (hz : ∀ j, 1 ≤ j → j ≤ 12 → counts j = 0) :
    insertSoilClass counts = 5 ∧ insertSoilClassWarnings counts = 1 := by
  have hsub : ∀ x ∈ soilHist counts, x ≤ 0 := by
    intro x hx
    simp only [soilHist, List.mem_map, List.mem_range] at hx
    obtain ⟨j, hj, rfl⟩ := hx
    by_cases h0 : j = 0
    · simp [h0]
    · rw [if_neg h0, hz j (by omega) (by omega)]
      simp
  have hmem0 : (0 : ℤ) ∈ soilHist counts := by
    have hgd : (soilHist counts).getD 1 0 = (0 : ℤ) := by
      rw [soilHist_getD counts 1 (by omega)]
      simp [hz 1 (by omega) (by omega)]
    rw [List.getD_eq_getElem _ _ (by rw [soilHist_length]; omega)] at hgd
    rw [← hgd]
    exact List.getElem_mem _
  have hmax0 : listMax (soilHist counts) = 0 :=
    le_antisymm (listMax_le _ 0 (soilHist_ne_nil counts) hsub)
      (le_listMax _ 0 hmem0)
  constructor
  · simp only [insertSoilClass, if_pos hmax0]
  · simp only [insertSoilClassWarnings, if_pos hmax0]

/-- Example counts from the spec: classes 2 and 4 tie at five pixels,
class 3 has three, every other valid class has none. -/
def exSoilCounts : Nat → ℕ :=
  fun j => if j = 2 then 5 else if j = 3 then 3 else if j = 4 then 5 else 0

/-- C3: insert_soil_class excludes the no-data class 0 (histogram entry
forced to -1), picks the class with the highest count resolving ties to the
first (lowest) index attaining the maximum, and assigns sentinel class 5
with a warning when all counts over classes 1..12 are zero. -/
theorem soil_class_majority (counts : Nat → ℕ) :
    ((∃ j, 1 ≤ j ∧ j ≤ 12 ∧ 0 < counts j) →
      ∃ sc : Nat, insertSoilClass counts = (sc : ℤ) ∧ 1 ≤ sc ∧ sc ≤ 12 ∧
        (∀ j, 1 ≤ j → j ≤ 12 → counts j ≤ counts sc) ∧
        (∀ j, 1 ≤ j → j < sc → counts j < counts sc)) ∧
    ((∀ j, 1 ≤ j → j ≤ 12 → counts j = 0) →
      insertSoilClass counts = 5 ∧ insertSoilClassWarnings counts = 1) := by
  constructor
  · intro hpos
    obtain ⟨heq, h1, h2, hle, hlt, _⟩ := insertSoilClass_pos counts hpos
    exact ⟨argmaxFirst (soilHist counts), heq, h1, h2, hle, hlt⟩
  · intro hz
    exact insertSoilClass_zero counts hz

/-- Witness for C3: on the spec example with counts 0, 5, 3, 5 over classes
1..4 the resolved class is 2, the first index attaining the maximum. -/
theorem soil_class_majority_witness :
    insertSoilClass exSoilCounts = 2 ∧
    (∃ sc : Nat, insertSoilClass exSoilCounts = (sc : ℤ) ∧ 1 ≤ sc ∧ sc ≤ 12 ∧
      (∀ j, 1 ≤ j → j ≤ 12 → exSoilCounts j ≤ exSoilCounts sc) ∧
      (∀ j, 1 ≤ j → j < sc → exSoilCounts j < exSoilCounts sc)) :=
  ⟨by decide, (soil_class_majority exSoilCounts).1 ⟨2, by decide, by decide, by decide⟩⟩

/-- C10: after insert_soil_class runs no HRU keeps the no-data class 0: the
assigned value is the sentinel 5, the mismatch marker -999, or the first
index attaining the maximal count over classes 1..12. -/
theorem soilTypeIndex_never_zero (counts : Nat → ℕ) :
    insertSoilClass counts ≠ 0 ∧
    (insertSoilClass counts = 5 ∨ insertSoilClass counts = -999 ∨
      (∃ sc : Nat, insertSoilClass counts = (sc : ℤ) ∧ 1 ≤ sc ∧ sc ≤ 12 ∧
        (∀ j, 1 ≤ j → j ≤ 12 → counts j ≤ counts sc) ∧
        (∀ j, 1 ≤ j → j < sc → counts j < counts sc))) := by
  by_cases hz : ∀ j, 1 ≤ j → j ≤ 12 → counts j = 0
  · obtain ⟨h5, _⟩ := insertSoilClass_zero counts hz
    exact ⟨by rw [h5]; decide, Or.inl h5⟩
  · push_neg at hz
    obtain ⟨j, hj1, hj2, hjne⟩ := hz
    have hpos : ∃ j, 1 ≤ j ∧ j ≤ 12 ∧ 0 < counts j := ⟨j, hj1, hj2, by omega⟩
    obtain ⟨heq, h1, h2, hle, hlt, _⟩ := insertSoilClass_pos counts hpos
    refine ⟨?_, Or.inr (Or.inr ⟨argmaxFirst (soilHist counts), heq, h1, h2, hle, hlt⟩)⟩
    rw [heq]
    exact_mod_cast by omega

/-- Witness for C10 at a concrete histogram with a single populated class. -/
theorem soilTypeIndex_never_zero_witness :
    insertSoilClass (fun j => if j = 7 then 4 else 0) ≠ 0 ∧
    (insertSoilClass (fun j => if j = 7 then 4 else 0) = 5 ∨
      insertSoilClass (fun j => if j = 7 then 4 else 0) = -999 ∨
      (∃ sc : Nat, insertSoilClass (fun j => if j = 7 then 4 else 0) = (sc : ℤ) ∧
        1 ≤ sc ∧ sc ≤ 12 ∧
        (∀ j, 1 ≤ j → j ≤ 12 →
          (if j = 7 then 4 else 0) ≤ (if sc = 7 then 4 else 0)) ∧
        (∀ j, 1 ≤ j → j < sc →
          (if j = 7 then 4 else 0) < (if sc = 7 then 4 else 0)))) :=
  soilTypeIndex_never_zero (fun j => if j = 7 then 4 else 0)

theorem getD_le_listMax (l : List ℤ) (i : Nat) (hi : i < l.length) :
    l.getD i 0 ≤ listMax l := by
  apply le_listMax
  rw [List.getD_eq_getElem _ _ hi]
  exact List.getElem_mem _

theorem argmaxFirst_eq : ∀ (l : List ℤ) (k : Nat), k < l.length →
    (∀ i, i < l.length → l.getD i 0 ≤ l.getD k 0) →
    (∀ i, i < k → l.getD i 0 < l.getD k 0) → argmaxFirst l = k
  | [_], k, hk, _, _ => by
    simp only [List.length_singleton] at hk
    interval_cases k
    simp [argmaxFirst]
  | a :: b :: ys, k, hk, hmax, hlt => by
    cases k with
    | zero =>
      have hle : listMax (b :: ys) ≤ a := by
        apply listMax_le _ _ (by simp)
        intro x hx
        obtain ⟨i, hi, rfl⟩ := List.mem_iff_getElem.mp hx
        have := hmax (i + 1) (by simpa using Nat.succ_lt_succ hi)
        rw [List.getD_eq_getElem _ _ (by simpa using Nat.succ_lt_succ hi)] at this
        simpa using this
      simp [argmaxFirst, hle]
    | succ j =>
      have hlt0 : a < (b :: ys).getD j 0 := by
        have := hlt 0 (by omega)
        simpa using this
      have hnle : ¬ listMax (b :: ys) ≤ a := by
        have hjlen : j < (b :: ys).length := by simpa using hk
        have := getD_le_listMax (b :: ys) j hjlen
        omega
      have ih := argmaxFirst_eq (b :: ys) j (by simpa using hk)
        (fun i hi => by
          have := hmax (i + 1) (by simpa using Nat.succ_lt_succ hi)
          simpa using this)
        (fun i hi => by
          have := hlt (i + 1) (by omega)
          simpa using this)
      simp [argmaxFirst, hnle, ih]

/-! ## Land class insertion (summa_utils.py, insert_land_class, lines 1821-1859)

For each HRU the function reads pixel counts from columns IGBP_1 .. IGBP_17
of the land intersection shapefile (absent column: count 0), takes numpy
argmax plus one as the majority class, replaces it by -999 on an
index/mode mismatch, and then treats class 17 (water) specially: when any
other class has pixels the most common non-water class is chosen instead,
otherwise the HRU is counted as purely water; the total count of purely
water HRUs is logged at the end of the pass. -/

/-- Seventeen-wide land histogram: entry k holds the count of class k+1. -/
def landHist (counts : Nat → ℕ) : List ℤ :=
  (List.range 17).map (fun k => (counts (k + 1) : ℤ))

/-- Land class assigned to one HRU by insert_land_class, paired with the
flag telling whether the HRU was counted as purely water. -/
def insertLandClass (counts : Nat → ℕ) : ℤ × Bool :=
  let h := landHist counts
  let lcN := argmaxFirst h + 1
  let lc : ℤ := if (counts lcN : ℤ) ≠ h.getD (lcN - 1) 0 then -999 else (lcN : ℤ)
  if lc = 17 then
    if (h.take 16).any (fun v => decide (0 < v)) then
      (((argmaxFirst (h.take 16) + 1 : Nat) : ℤ), false)
    else (17, true)
  else (lc, false)

/-- Total of purely water HRUs reported at the end of insert_land_class. -/
def countPureWater (hrus : List (Nat → ℕ)) : Nat :=
  hrus.countP (fun c => (insertLandClass c).2)

theorem landHist_length (counts : Nat → ℕ) : (landHist counts).length = 17 := by
  simp [landHist]

theorem landHist_getD (counts : Nat → ℕ) (k : Nat) (hk : k < 17) :
    (landHist counts).getD k 0 = (counts (k + 1) : ℤ) :=
  getD_range_map 17 _ k hk 0

theorem landHist_take (counts : Nat → ℕ) :
    (landHist counts).take 16 = (List.range 16).map (fun k => (counts (k + 1) : ℤ)) := by
  rw [landHist, ← List.map_take, List.take_range]
  norm_num

theorem landHist_no_mismatch (counts : Nat → ℕ) :
    (counts (argmaxFirst (landHist counts) + 1) : ℤ)
      = (landHist counts).getD (argmaxFirst (landHist counts) + 1 - 1) 0 := by
  have hlt : argmaxFirst (landHist counts) < 17 := by
    have := argmaxFirst_lt_length (landHist counts)
      (by intro h; have := landHist_length counts; rw [h] at this; simp at this)
    rwa [landHist_length] at this
  rw [Nat.add_sub_cancel, landHist_getD counts _ hlt]

theorem landHist_ne_nil (counts : Nat → ℕ) : landHist counts ≠ [] := by
  intro h
  have := landHist_length counts
  rw [h] at this
  simp at this

theorem argmaxFirst_landHist_lt (counts : Nat → ℕ) :
    argmaxFirst (landHist counts) < 17 := by
  have := argmaxFirst_lt_length (landHist counts) (landHist_ne_nil counts)
  rwa [landHist_length] at this

/-- The index/mode mismatch branch of insert_land_class never fires, so the
function reduces to the majority choice followed by the water rule. -/
theorem insertLandClass_unfold (counts : Nat → ℕ) :
    insertLandClass counts =
      if ((argmaxFirst (landHist counts) + 1 : Nat) : ℤ) = 17 then
        if ((landHist counts).take 16).any (fun v => decide (0 < v)) then
          (((argmaxFirst ((landHist counts).take 16) + 1 : Nat) : ℤ), false)
        else (17, true)
      else (((argmaxFirst (landHist counts) + 1 : Nat) : ℤ), false) := by
  have hnm := landHist_no_mismatch counts
  simp only [insertLandClass, hnm, ne_eq, eq_self_iff_true, not_true_eq_false, if_false]

theorem insertLandClass_not_water (counts : Nat → ℕ)
    (h16 : argmaxFirst (landHist counts) ≠ 16) :
    insertLandClass counts = (((argmaxFirst (landHist counts) + 1 : Nat) : ℤ), false) := by
  rw [insertLandClass_unfold]
  rw [if_neg (by exact_mod_cast by omega)]

theorem insertLandClass_water_pos (counts : Nat → ℕ)
    (h16 : argmaxFirst (landHist counts) = 16)
    (hpos : ∃ j, 1 ≤ j ∧ j ≤ 16 ∧ 0 < counts j) :
    ∃ c : Nat, insertLandClass counts = ((c : ℤ), false) ∧ 1 ≤ c ∧ c ≤ 16 ∧
      (∀ j, 1 ≤ j → j ≤ 16 → counts j ≤ counts c) ∧
      (∀ j, 1 ≤ j → j < c → counts j < counts c) := by
  obtain ⟨j, hj1, hj2, hjpos⟩ := hpos
  have htake := landHist_take counts
  have htlen : ((landHist counts).take 16).length = 16 := by rw [htake]; simp
  have htne : (landHist counts).take 16 ≠ [] := by
    intro h
    rw [h] at htlen
    simp at htlen
  have hgd : ∀ k, k < 16 → ((landHist counts).take 16).getD k 0 = (counts (k + 1) : ℤ) := by
    intro k hk
    rw [htake]
    exact getD_range_map 16 _ k hk 0
  have hany : ((landHist counts).take 16).any (fun v => decide (0 < v)) = true := by
    rw [List.any_eq_true]
    refine ⟨(counts j : ℤ), ?_, by simpa using hjpos⟩
    have := hgd (j - 1) (by omega)
    rw [(by omega : j - 1 + 1 = j)] at this
    rw [← this, List.getD_eq_getElem _ _ (by omega)]
    exact List.getElem_mem _
  set t := (landHist counts).take 16 with ht
  have hc := argmaxFirst_lt_length t htne
  rw [htlen] at hc
  have hmaxv := getD_argmaxFirst t htne
  rw [hgd _ hc] at hmaxv
  refine ⟨argmaxFirst t + 1, ?_, by omega, by omega, ?_, ?_⟩
  · rw [insertLandClass_unfold, if_pos (by exact_mod_cast by omega), if_pos hany]
  · intro i hi1 hi2
    have hmem := getD_le_listMax t (i - 1) (by omega)
    rw [hgd _ (by omega), (by omega : i - 1 + 1 = i), ← hmaxv] at hmem
    exact_mod_cast hmem
  · intro i hi1 hi2
    have hlt := getD_lt_listMax_of_lt_argmaxFirst t (i - 1) (by omega)
    rw [hgd _ (by omega), (by omega : i - 1 + 1 = i), ← hmaxv] at hlt
    exact_mod_cast hlt

theorem insertLandClass_water_zero (counts : Nat → ℕ)
    (h16 : argmaxFirst (landHist counts) = 16)
    (hz : ∀ j, 1 ≤ j → j ≤ 16 → counts j = 0) :
    insertLandClass counts = (17, true) := by
  have htake := landHist_take counts
  have hany : ((landHist counts).take 16).any (fun v => decide (0 < v)) = false := by
    rw [List.any_eq_false]
    intro x hx
    rw [htake] at hx
    simp only [List.mem_map, List.mem_range] at hx
    obtain ⟨k, hk, rfl⟩ := hx
    rw [hz (k + 1) (by omega) (by omega)]
    simp
  rw [insertLandClass_unfold, if_pos (by exact_mod_cast by omega), hany]
  simp

theorem insertLandClass_water_iff (counts : Nat → ℕ) :
    (insertLandClass counts).2 = true ↔
      ((∀ j, 1 ≤ j → j ≤ 16 → counts j = 0) ∧ 0 < counts 17) := by
  constructor
  · intro hw
    by_cases h16 : argmaxFirst (landHist counts) = 16
    · by_cases hz : ∀ j, 1 ≤ j → j ≤ 16 → counts j = 0
      · refine ⟨hz, ?_⟩
        have hlt0 := getD_lt_listMax_of_lt_argmaxFirst (landHist counts) 0 (by omega)
        have hmaxv := getD_argmaxFirst (landHist counts) (landHist_ne_nil counts)
        rw [h16, landHist_getD counts 16 (by omega)] at hmaxv
        rw [landHist_getD counts 0 (by omega), ← hmaxv] at hlt0
        have h1 : (0 : ℤ) ≤ (counts 1 : ℤ) := by positivity
        exact_mod_cast lt_of_le_of_lt h1 hlt0
      · exfalso
        push_neg at hz
        obtain ⟨j, hj1, hj2, hjne⟩ := hz
        obtain ⟨c, hc, _⟩ := insertLandClass_water_pos counts h16 ⟨j, hj1, hj2, by omega⟩
        rw [hc] at hw
        simp at hw
    · rw [insertLandClass_not_water counts h16] at hw
      simp at hw
  · rintro ⟨hz, h17⟩
    have h16 : argmaxFirst (landHist counts) = 16 := by
      apply argmaxFirst_eq (landHist counts) 16 (by rw [landHist_length]; omega)
      · intro i hi
        rw [landHist_length] at hi
        rw [landHist_getD counts i hi, landHist_getD counts 16 (by omega)]
        by_cases hi16 : i = 16
        · rw [hi16]
        · rw [hz (i + 1) (by omega) (by omega)]
          positivity
      · intro i hi
        rw [landHist_getD counts i (by omega), landHist_getD counts 16 (by omega)]
        rw [hz (i + 1) (by omega) (by omega)]
        exact_mod_cast h17
    rw [insertLandClass_water_zero counts h16 hz]

/-- Decision procedure for an HRU whose pixels all lie in the water class:
every class 1..16 has count zero and class 17 has a pixel. -/
def pureWaterHRU (c : Nat → ℕ) : Bool :=
  ((List.range 16).all (fun k => c (k + 1) == 0)) && decide (0 < c 17)

theorem pureWaterHRU_iff (c : Nat → ℕ) :
    pureWaterHRU c = true ↔ ((∀ j, 1 ≤ j → j ≤ 16 → c j = 0) ∧ 0 < c 17) := by
  simp only [pureWaterHRU, Bool.and_eq_true, List.all_eq_true, List.mem_range,
    beq_iff_eq, decide_eq_true_eq]
  constructor
  · rintro ⟨hz, h17⟩
    refine ⟨fun j hj1 hj2 => ?_, h17⟩
    have := hz (j - 1) (by omega)
    rwa [(by omega : j - 1 + 1 = j)] at this
  · rintro ⟨hz, h17⟩
    exact ⟨fun k hk => hz (k + 1) (by omega) (by omega), h17⟩

theorem insertLandClass_water_eq_pred (c : Nat → ℕ) :
    (insertLandClass c).2 = pureWaterHRU c := by
  have hiff := insertLandClass_water_iff c
  cases h2 : (insertLandClass c).2 with
  | false =>
    cases hp : pureWaterHRU c with
    | false => rfl
    | true =>
      have := hiff.mpr ((pureWaterHRU_iff c).mp hp)
      rw [h2] at this
      simp at this
  | true =>
    symm
    exact (pureWaterHRU_iff c).mpr (hiff.mp h2)

/-- C4: when the majority land class of an HRU is the water class 17,
insert_land_class assigns the most common non-water class instead whenever
any other class has pixels, and otherwise counts the HRU as purely water;
the reported total of purely water HRUs is exactly the number of HRUs whose
histogram has pixels only in the water class. -/
theorem land_class_water_rule (counts : Nat → ℕ) (hrus : List (Nat → ℕ)) :
    (argmaxFirst (landHist counts) = 16 →
      (((∃ j, 1 ≤ j ∧ j ≤ 16 ∧ 0 < counts j) →
        ∃ c : Nat, insertLandClass counts = ((c : ℤ), false) ∧ 1 ≤ c ∧ c ≤ 16 ∧
          (∀ j, 1 ≤ j → j ≤ 16 → counts j ≤ counts c) ∧
          (∀ j, 1 ≤ j → j < c → counts j < counts c)) ∧
       ((∀ j, 1 ≤ j → j ≤ 16 → counts j = 0) →
         insertLandClass counts = (17, true)))) ∧
    ((insertLandClass counts).2 = true ↔
      ((∀ j, 1 ≤ j → j ≤ 16 → counts j = 0) ∧ 0 < counts 17)) ∧
    countPureWater hrus = hrus.countP pureWaterHRU ∧
    (∀ c : Nat → ℕ, pureWaterHRU c = true ↔
      ((∀ j, 1 ≤ j → j ≤ 16 → c j = 0) ∧ 0 < c 17)) := by
  refine ⟨fun h16 => ⟨insertLandClass_water_pos counts h16,
    insertLandClass_water_zero counts h16⟩, insertLandClass_water_iff counts, ?_,
    pureWaterHRU_iff⟩
  unfold countPureWater
  apply List.countP_congr
  intro c _
  rw [insertLandClass_water_eq_pred c]

/-- Witness for C4: an HRU with ninety water pixels and two pixels of class
3 is reassigned to class 3; an HRU with only water pixels stays class 17
and is the only one counted as purely water. -/
theorem land_class_water_rule_witness :
    (argmaxFirst (landHist (fun j => if j = 17 then 90 else if j = 3 then 2 else 0)) = 16 →
      (((∃ j, 1 ≤ j ∧ j ≤ 16 ∧
          0 < (if j = 17 then 90 else if j = 3 then 2 else 0 : ℕ)) →
        ∃ c : Nat,
          insertLandClass (fun j => if j = 17 then 90 else if j = 3 then 2 else 0)
            = ((c : ℤ), false) ∧ 1 ≤ c ∧ c ≤ 16 ∧
          (∀ j, 1 ≤ j → j ≤ 16 →
            (if j = 17 then 90 else if j = 3 then 2 else 0 : ℕ)
              ≤ (if c = 17 then 90 else if c = 3 then 2 else 0)) ∧
          (∀ j, 1 ≤ j → j < c →
            (if j = 17 then 90 else if j = 3 then 2 else 0 : ℕ)
              < (if c = 17 then 90 else if c = 3 then 2 else 0))) ∧
       ((∀ j, 1 ≤ j → j ≤ 16 →
          (if j = 17 then 90 else if j = 3 then 2 else 0 : ℕ) = 0) →
         insertLandClass (fun j => if j = 17 then 90 else if j = 3 then 2 else 0)
           = (17, true)))) ∧
    ((insertLandClass (fun j => if j = 17 then 90 else if j = 3 then 2 else 0)).2 = true ↔
      ((∀ j, 1 ≤ j → j ≤ 16 →
        (if j = 17 then 90 else if j = 3 then 2 else 0 : ℕ) = 0) ∧
        0 < (if (17 : Nat) = 17 then 90 else if (17 : Nat) = 3 then 2 else 0 : ℕ))) ∧
    countPureWater [fun j => if j = 17 then 90 else if j = 3 then 2 else 0,
        fun j => if j = 17 then 40 else 0] =
      [fun j => if j = 17 then 90 else if j = 3 then 2 else 0,
        fun j : Nat => if j = 17 then (40 : ℕ) else 0].countP pureWaterHRU ∧
    (∀ c : Nat → ℕ, pureWaterHRU c = true ↔
      ((∀ j, 1 ≤ j → j ≤ 16 → c j = 0) ∧ 0 < c 17)) :=
  land_class_water_rule (fun j => if j = 17 then 90 else if j = 3 then 2 else 0)
    [fun j => if j = 17 then 90 else if j = 3 then 2 else 0,
     fun j => if j = 17 then 40 else 0]

/-! ## HRU connectivity (summa_utils.py, _set_downHRUindex, lines 1926-1936)

For each GRU the function sorts the collected (hru_id, elevation) pairs by
descending elevation (Python sorted with a key is a stable sort, modelled
here by the stable insertionSort with the same comparison), links every HRU
to the id of the next HRU in the sorted order and gives the last (lowest)
HRU the outlet sentinel 0. -/

/-- Comparison used by sorted(key elevation, reverse True): a precedes b
when the elevation of b does not exceed the elevation of a. -/
def elevDescRel (a b : ℤ × ℚ) : Prop := b.2 ≤ a.2

instance : DecidableRel elevDescRel :=
  fun a b => inferInstanceAs (Decidable (b.2 ≤ a.2))

instance : IsTotal (ℤ × ℚ) elevDescRel := ⟨fun a b => le_total b.2 a.2⟩

instance : IsTrans (ℤ × ℚ) elevDescRel := ⟨fun _ _ _ h1 h2 => le_trans h2 h1⟩

/-- Stable descending sort of (hru_id, elevation) pairs. -/
def sortHrusByElevDesc (l : List (ℤ × ℚ)) : List (ℤ × ℚ) :=
  List.insertionSort elevDescRel l

/-- Successive links over a list of ids: each id points to the next one and
the last id points to the outlet sentinel 0. -/
def chainLinks : List ℤ → List (ℤ × ℤ)
  | [] => []
  | [a] => [(a, 0)]
  | a :: b :: rest => (a, b) :: chainLinks (b :: rest)

/-- downHRUindex assignment of _set_downHRUindex for one GRU, as the list
of (hru_id, downHRUindex) pairs in descending elevation order. -/
def setDownHRUindex (l : List (ℤ × ℚ)) : List (ℤ × ℤ) :=
  chainLinks ((sortHrusByElevDesc l).map Prod.fst)

/-- Down-index of a given HRU id under an assignment. -/
def lookupDown (links : List (ℤ × ℤ)) (i : ℤ) : Option ℤ :=
  (links.find? (fun p => p.1 == i)).map Prod.snd

/-- Walk the down-index assignment a given number of steps. -/
def followDown (links : List (ℤ × ℤ)) : ℤ → Nat → Option ℤ
  | i, 0 => some i
  | i, n + 1 =>
    match lookupDown links i with
    | some j => followDown links j n
    | none => none

theorem chainLinks_map_fst : ∀ (ids : List ℤ), (chainLinks ids).map Prod.fst = ids
  | [] => rfl
  | [a] => rfl
  | a :: b :: rest => by
    have ih := chainLinks_map_fst (b :: rest)
    simp [chainLinks, ih]

theorem lookupDown_cons_self (a c : ℤ) (L : List (ℤ × ℤ)) :
    lookupDown ((a, c) :: L) a = some c := by
  simp [lookupDown, List.find?_cons]

theorem lookupDown_cons_ne (a c i : ℤ) (L : List (ℤ × ℤ)) (h : a ≠ i) :
    lookupDown ((a, c) :: L) i = lookupDown L i := by
  simp [lookupDown, List.find?_cons, h]

theorem chainLinks_no_self : ∀ (ids : List ℤ), ids.Nodup → (0 : ℤ) ∉ ids →
    ∀ p ∈ chainLinks ids, p.1 ≠ p.2
  | [], _, _ => by simp [chainLinks]
  | [a], _, h0 => by
    simp only [chainLinks, List.mem_singleton, forall_eq]
    intro h
    apply h0
    have ha : a = (0 : ℤ) := h
    rw [ha]
    simp
  | a :: b :: rest, hnd, h0 => by
    intro p hp
    rcases List.mem_cons.mp hp with h | h
    · subst h
      intro hab
      have hab2 : a = b := hab
      have : a ∈ (b :: rest) := by rw [hab2]; simp
      exact (List.nodup_cons.mp hnd).1 this
    · exact chainLinks_no_self (b :: rest) (List.nodup_cons.mp hnd).2
        (fun hmem => h0 (List.mem_cons_of_mem _ hmem)) p h

theorem lookupDown_chainLinks_mem : ∀ (ids : List ℤ) (i j : ℤ),
    lookupDown (chainLinks ids) i = some j → j = 0 ∨ j ∈ ids
  | [], i, j => by simp [chainLinks, lookupDown]
  | [a], i, j => by
    by_cases h : a = i
    · subst h
      rw [show chainLinks [a] = [(a, 0)] from rfl, lookupDown_cons_self]
      intro hj
      simp at hj
      exact Or.inl hj.symm
    · rw [show chainLinks [a] = [(a, 0)] from rfl, lookupDown_cons_ne a 0 i [] h]
      intro hj
      simp [lookupDown] at hj
  | a :: b :: rest, i, j => by
    by_cases h : a = i
    · subst h
      rw [show chainLinks (a :: b :: rest) = (a, b) :: chainLinks (b :: rest) from rfl,
        lookupDown_cons_self]
      intro hj
      simp at hj
      exact Or.inr (by rw [← hj]; simp)
    · rw [show chainLinks (a :: b :: rest) = (a, b) :: chainLinks (b :: rest) from rfl,
        lookupDown_cons_ne a b i _ h]
      intro hj
      rcases lookupDown_chainLinks_mem (b :: rest) i j hj with h0 | hm
      · exact Or.inl h0
      · exact Or.inr (List.mem_cons_of_mem _ hm)

theorem followDown_cons_avoid (p : ℤ × ℤ) (ids : List ℤ) (hp : p.1 ∉ ids)
    (hp0 : p.1 ≠ 0) :
    ∀ (n : Nat) (i : ℤ), (i ∈ ids ∨ i = 0) →
      followDown (p :: chainLinks ids) i n = followDown (chainLinks ids) i n := by
  intro n
  induction n with
  | zero => intro i _; rfl
  | succ m ih =>
    intro i hi
    have hne : p.1 ≠ i := by
      rcases hi with h | h
      · intro he; exact hp (he ▸ h)
      · intro he; exact hp0 (he.trans h)
    have hl : lookupDown (p :: chainLinks ids) i = lookupDown (chainLinks ids) i := by
      obtain ⟨p1, p2⟩ := p
      exact lookupDown_cons_ne p1 p2 i _ hne
    simp only [followDown, hl]
    cases hfind : lookupDown (chainLinks ids) i with
    | none => rfl
    | some j =>
      rcases lookupDown_chainLinks_mem ids i j hfind with h0 | hm
      · exact ih j (Or.inr h0)
      · exact ih j (Or.inl hm)

theorem followDown_chain : ∀ (a : ℤ) (rest : List ℤ), (a :: rest).Nodup →
    (0 : ℤ) ∉ (a :: rest) → ∀ m, m ≤ rest.length + 1 →
    followDown (chainLinks (a :: rest)) a m = some ((a :: rest).getD m 0)
  | a, [], _, _, m, hm => by
    simp only [List.length_nil] at hm
    cases m with
    | zero => rfl
    | succ n =>
      cases n with
      | zero =>
        rw [show chainLinks [a] = [(a, 0)] from rfl]
        simp only [followDown, lookupDown_cons_self]
        rfl
      | succ k => omega
  | a, b :: rs, hnd, h0, m, hm => by
    cases m with
    | zero => rfl
    | succ n =>
      have hlook : lookupDown (chainLinks (a :: b :: rs)) a = some b := by
        rw [show chainLinks (a :: b :: rs) = (a, b) :: chainLinks (b :: rs) from rfl,
          lookupDown_cons_self]
      simp only [followDown, hlook]
      have hnd2 : (b :: rs).Nodup := (List.nodup_cons.mp hnd).2
      have h02 : (0 : ℤ) ∉ (b :: rs) := fun h => h0 (List.mem_cons_of_mem _ h)
      have ha0 : a ≠ 0 := by
        intro h
        exact h0 (by rw [h]; simp)
      have hbridge := followDown_cons_avoid (a, b) (b :: rs)
        (by simpa using (List.nodup_cons.mp hnd).1) ha0
        n b (Or.inl (by simp))
      rw [show chainLinks (a :: b :: rs) = (a, b) :: chainLinks (b :: rs) from rfl,
        hbridge, followDown_chain b rs hnd2 h02 n (by simpa using hm)]
      simp

/-- Example GRU from the spec: three HRUs with elevations 1000, 800, 600. -/
def exHrus : List (ℤ × ℚ) := [(1, 1000), (2, 800), (3, 600)]

/-- C5: _set_downHRUindex ranks the HRUs of a GRU by descending elevation
and links each to the next lower one, the lowest receiving the outlet
sentinel 0; with distinct nonzero ids the links form one acyclic chain:
no HRU points to itself, walking the links from the top HRU reaches 0 in
exactly as many steps as there are HRUs, and never earlier. -/
theorem downHRUindex_chain (l : List (ℤ × ℚ)) (a0 : ℤ × ℚ) (rest : List (ℤ × ℚ))
    (hnd : (l.map Prod.fst).Nodup) (h0 : (0 : ℤ) ∉ l.map Prod.fst)
    (hsort : sortHrusByElevDesc l = a0 :: rest) :
    (∀ p ∈ setDownHRUindex l, p.1 ≠ p.2) ∧
    followDown (setDownHRUindex l) a0.1 l.length = some 0 ∧
    (∀ m, m < l.length → followDown (setDownHRUindex l) a0.1 m ≠ some 0) ∧
    List.Chain' elevDescRel (sortHrusByElevDesc l) := by
  have hperm : List.Perm (sortHrusByElevDesc l) l := List.perm_insertionSort elevDescRel l
  have hpermf : List.Perm ((sortHrusByElevDesc l).map Prod.fst) (l.map Prod.fst) :=
    hperm.map Prod.fst
  have hndS : ((sortHrusByElevDesc l).map Prod.fst).Nodup := hpermf.nodup_iff.mpr hnd
  have h0S : (0 : ℤ) ∉ (sortHrusByElevDesc l).map Prod.fst :=
    fun h => h0 (hpermf.mem_iff.mp h)
  have hlen : (sortHrusByElevDesc l).length = l.length := hperm.length_eq
  have hids : (sortHrusByElevDesc l).map Prod.fst = a0.1 :: rest.map Prod.fst := by
    rw [hsort]
    rfl
  have hlen2 : (rest.map Prod.fst).length + 1 = l.length := by
    rw [← hlen, hsort]
    simp
  have hndC : (a0.1 :: rest.map Prod.fst).Nodup := by rwa [hids] at hndS
  have h0C : (0 : ℤ) ∉ (a0.1 :: rest.map Prod.fst) := by rwa [hids] at h0S
  have hmaplen : (rest.map Prod.fst).length = rest.length := by simp
  have hlinks : setDownHRUindex l = chainLinks (a0.1 :: rest.map Prod.fst) := by
    rw [setDownHRUindex, hids]
  refine ⟨?_, ?_, ?_, ?_⟩
  · rw [hlinks]
    exact chainLinks_no_self _ hndC h0C
  · rw [hlinks, followDown_chain a0.1 (rest.map Prod.fst) hndC h0C l.length (by omega)]
    rw [List.getD_eq_default _ _ (by simp only [List.length_cons]; omega)]
  · intro m hm
    rw [hlinks, followDown_chain a0.1 (rest.map Prod.fst) hndC h0C m (by omega)]
    have hmem : (a0.1 :: rest.map Prod.fst).getD m 0 ∈ (a0.1 :: rest.map Prod.fst) := by
      rw [List.getD_eq_getElem _ _ (by simp; omega)]
      exact List.getElem_mem _
    intro hcontra
    simp only [Option.some_inj] at hcontra
    rw [hcontra] at hmem
    exact h0C hmem
  · exact (List.sorted_insertionSort elevDescRel l).chain'

/-- Witness for C5: ids 1, 2, 3 at elevations 1000, 800, 600 produce the
chain 1 to 2 to 3 to 0, matching the spec example 1000 to 800 to 600 to 0. -/
theorem downHRUindex_chain_witness :
    setDownHRUindex exHrus = [(1, 2), (2, 3), (3, 0)] ∧
    ((∀ p ∈ setDownHRUindex exHrus, p.1 ≠ p.2) ∧
     followDown (setDownHRUindex exHrus) ((1 : ℤ), (1000 : ℚ)).1 exHrus.length = some 0 ∧
     (∀ m, m < exHrus.length →
       followDown (setDownHRUindex exHrus) ((1 : ℤ), (1000 : ℚ)).1 m ≠ some 0) ∧
     List.Chain' elevDescRel (sortHrusByElevDesc exHrus)) :=
  ⟨by decide,
   downHRUindex_chain exHrus (1, 1000) [(2, 800), (3, 600)]
     (by decide) (by decide) (by decide)⟩

/-! ## HRU-id ordering across produced files
(summa_utils.py, create_attributes_file lines 1656-1716,
create_initial_conditions lines 1383-1452, create_trial_parameters
lines 1489-1530)

All three writers read the hruId array of an already produced forcing file
as the ordering template.  create_attributes_file reindexes the catchment
shapefile with shp.loc applied to the forcing hruId list (raising KeyError
when an id is absent, modelled by Option) and writes the reindexed hruId
column row by row; the other two write the template array verbatim into
their hruId variable. -/

/-- pandas loc over a unique integer index: pick, for each requested id,
the first row carrying it; none when any id is absent. -/
def locReindex {α : Type} (rows : List (ℤ × α)) : List ℤ → Option (List (ℤ × α))
  | [] => some []
  | i :: is =>
    match rows.find? (fun r => r.1 == i), locReindex rows is with
    | some r, some rest => some (r :: rest)
    | _, _ => none

/-- hruId column written to the attributes file, in row order. -/
def attributesHruIds {α : Type} (rows : List (ℤ × α)) (forcingHruIds : List ℤ) :
    Option (List ℤ) :=
  (locReindex rows forcingHruIds).map (fun sel => sel.map Prod.fst)

/-- Modelled fields of the cold-state file written by
create_initial_conditions: hruId is copied verbatim from the template
forcing file and each state variable is a constant per HRU. -/
structure ColdState where
  hruIds : List ℤ
  numHru : Nat
  dtInit : List ℚ
  nSoil : List ℤ
  nSnow : List ℤ

def createInitialConditions (forcingHruIds : List ℤ) (dataStep : ℚ) : ColdState :=
  { hruIds := forcingHruIds
    numHru := forcingHruIds.length
    dtInit := List.replicate forcingHruIds.length dataStep
    nSoil := List.replicate forcingHruIds.length 8
    nSnow := List.replicate forcingHruIds.length 0 }

/-- Modelled fields of the trial-parameter file written by
create_trial_parameters: hruId is copied verbatim from the template forcing
file and each configured parameter value is broadcast over the hru
dimension. -/
structure TrialParams where
  hruIds : List ℤ
  params : List (String × List ℚ)

def createTrialParameters (forcingHruIds : List ℤ) (tps : List (String × ℚ)) :
    TrialParams :=
  { hruIds := forcingHruIds
    params := tps.map (fun p => (p.1, List.replicate forcingHruIds.length p.2)) }

theorem locReindex_map_fst {α : Type} (rows : List (ℤ × α)) :
    ∀ (ids : List ℤ) (sel : List (ℤ × α)),
      locReindex rows ids = some sel → sel.map Prod.fst = ids
  | [], sel => by
    intro h
    simp only [locReindex, Option.some_inj] at h
    rw [← h]
    rfl
  | i :: is, sel => by
    intro h
    simp only [locReindex] at h
    cases hfind : rows.find? (fun r => r.1 == i) with
    | none => rw [hfind] at h; simp at h
    | some r =>
      rw [hfind] at h
      cases hrest : locReindex rows is with
      | none => rw [hrest] at h; simp at h
      | some rest =>
        rw [hrest] at h
        simp only [Option.some_inj] at h
        have hr : r.1 = i := by
          have := List.find?_some hfind
          simpa using this
        have ih := locReindex_map_fst rows is rest hrest
        rw [← h]
        simp [hr, ih]

/-- C1: the hruId arrays written by create_attributes_file,
create_initial_conditions and create_trial_parameters are element for
element identical, in the same positional order, to the hruId array of the
template forcing file each of them reads. -/
theorem hruId_order_consistent {α : Type} (rows : List (ℤ × α)) (ids : List ℤ)
    (sel : List (ℤ × α)) (hsel : locReindex rows ids = some sel) (ds : ℚ)
    (tps : List (String × ℚ)) :
    attributesHruIds rows ids = some ids ∧
    (createInitialConditions ids ds).hruIds = ids ∧
    (createTrialParameters ids tps).hruIds = ids := by
  refine ⟨?_, rfl, rfl⟩
  rw [attributesHruIds, hsel]
  simp only [Option.map]
  rw [locReindex_map_fst rows ids sel hsel]

/-- Witness for C1: a shapefile stored in the order 20, 10, 30 reindexed by
the forcing order 10, 20, 30 yields hruIds 10, 20, 30 in all three files. -/
theorem hruId_order_consistent_witness :
    attributesHruIds [((20 : ℤ), (7 : ℚ)), (10, 5), (30, 9)] [10, 20, 30]
        = some [10, 20, 30] ∧
    (createInitialConditions [10, 20, 30] 3600).hruIds = [10, 20, 30] ∧
    (createTrialParameters [10, 20, 30] [("theta_sat", 2)]).hruIds = [10, 20, 30] :=
  hruId_order_consistent [((20 : ℤ), (7 : ℚ)), (10, 5), (30, 9)] [10, 20, 30]
    [(10, 5), (20, 7), (30, 9)] (by decide) 3600 [("theta_sat", 2)]

/-! ## Forcing remap with lapse correction
(summa_utils.py, apply_datastep_and_lapse_rate, lines 857-903)

The function reads the intersection table (columns weight, S_2_elev_m,
S_1_elev_m and the HRU id), computes per row
weight * lapse_rate * (forcing elevation - catchment elevation), groups the
sums by HRU id, and then, for every forcing file, looks the per-HRU sums up
with pandas loc in the order of the hruId array of the file (KeyError when
an id has no row in the table, caught by the bare except that logs one
warning and skips the file), sets data_step, and when APPLY_LAPSE_RATE is
exactly True adds the per-HRU scalar to airtemp at every timestep while
restoring the units attribute. -/

/-- One row of the intersection table. -/
structure IntersectRow where
  hruId : ℤ
  weight : ℚ
  forcingElev : ℚ
  catchElev : ℚ

/-- Contribution of one intersection row:
weight * lapse_rate * (S_2_elev_m - S_1_elev_m). -/
def lapseValue (rate : ℚ) (r : IntersectRow) : ℚ :=
  r.weight * rate * (r.forcingElev - r.catchElev)

/-- Grouped sum of contributions of all rows of one HRU. -/
def lapseSum (rate : ℚ) (rows : List IntersectRow) (i : ℤ) : ℚ :=
  ((rows.filter (fun r => r.hruId == i)).map (lapseValue rate)).sum

/-- pandas loc lookup into the grouped sums: none when the HRU id has no
row in the intersection table. -/
def lapseLookup (rate : ℚ) (rows : List IntersectRow) (i : ℤ) : Option ℚ :=
  if rows.any (fun r => r.hruId == i) then some (lapseSum rate rows i) else none

/-- Lookup of the whole hruId array, mirroring
lapse_values.loc applied to the hruId values of the forcing file. -/
def lapseAll (rate : ℚ) (rows : List IntersectRow) : List ℤ → Option (List ℚ)
  | [] => some []
  | i :: is =>
    match lapseLookup rate rows i, lapseAll rate rows is with
    | some v, some vs => some (v :: vs)
    | _, _ => none

/-- A basin-averaged forcing file: hruId coordinate, time-major airtemp
grid, the units attribute of airtemp, and the remaining variables. -/
structure ForcingData where
  hruIds : List ℤ
  airtemp : List (List ℚ)
  airtempUnits : String
  others : List (String × List (List ℚ))

/-- The SUMMA-ready forcing file written by apply_datastep_and_lapse_rate:
the input dataset plus the data_step scalar. -/
structure SummaForcing where
  base : ForcingData
  dataStep : ℚ

/-- Per-file body of apply_datastep_and_lapse_rate: none models the bare
except path (a warning is logged and no output file is written). -/
def applyDatastepAndLapse (rate dataStep : ℚ) (applyLapse : Bool)
    (rows : List IntersectRow) (d : ForcingData) : Option SummaForcing :=
  match lapseAll rate rows d.hruIds with
  | none => none
  | some corr =>
    some { base :=
            { hruIds := d.hruIds
              airtemp :=
                if applyLapse then d.airtemp.map (fun ts => ts.zipWith (· + ·) corr)
                else d.airtemp
              airtempUnits := d.airtempUnits
              others := d.others }
           dataStep := dataStep }

/-- Number of warnings logged while processing one forcing file: the bare
except logs exactly one when the loc lookup raises. -/
def processFileWarnings (rate : ℚ) (rows : List IntersectRow) (d : ForcingData) : Nat :=
  match lapseAll rate rows d.hruIds with
  | none => 1
  | some _ => 0

theorem lapseAll_length (rate : ℚ) (rows : List IntersectRow) :
    ∀ (ids : List ℤ) (corr : List ℚ), lapseAll rate rows ids = some corr →
      corr.length = ids.length
  | [], corr => by
    intro h
    simp only [lapseAll, Option.some_inj] at h
    rw [← h]
    rfl
  | i :: is, corr => by
    intro h
    simp only [lapseAll] at h
    cases hl : lapseLookup rate rows i with
    | none => rw [hl] at h; simp at h
    | some v =>
      rw [hl] at h
      cases hrest : lapseAll rate rows is with
      | none => rw [hrest] at h; simp at h
      | some vs =>
        rw [hrest] at h
        simp only [Option.some_inj] at h
        have ih := lapseAll_length rate rows is vs hrest
        rw [← h]
        simp [ih]

theorem lapseAll_getD (rate : ℚ) (rows : List IntersectRow) :
    ∀ (ids : List ℤ) (corr : List ℚ), lapseAll rate rows ids = some corr →
      ∀ h, h < ids.length → corr.getD h 0 = lapseSum rate rows (ids.getD h 0)
  | [], corr => by
    intro _ k hk
    simp at hk
  | i :: is, corr => by
    intro hsome h hh
    simp only [lapseAll] at hsome
    cases hl : lapseLookup rate rows i with
    | none => rw [hl] at hsome; simp at hsome
    | some v =>
      rw [hl] at hsome
      cases hrest : lapseAll rate rows is with
      | none => rw [hrest] at hsome; simp at hsome
      | some vs =>
        rw [hrest] at hsome
        simp only [Option.some_inj] at hsome
        rw [← hsome]
        cases h with
        | zero =>
          simp only [List.getD_cons_zero]
          simp only [lapseLookup] at hl
          by_cases hany : rows.any (fun r => r.hruId == i)
          · rw [if_pos hany] at hl
            simp only [Option.some_inj] at hl
            exact hl.symm
          · rw [if_neg hany] at hl
            simp at hl
        | succ k =>
          simp only [List.getD_cons_succ]
          exact lapseAll_getD rate rows is vs hrest k (by simpa using hh)

theorem lapseAll_none_of_missing (rate : ℚ) (rows : List IntersectRow) :
    ∀ (ids : List ℤ) (i : ℤ), i ∈ ids → (∀ r ∈ rows, r.hruId ≠ i) →
      lapseAll rate rows ids = none
  | [], i => by
    intro hmem _
    simp at hmem
  | j :: is, i => by
    intro hmem habs
    rcases List.mem_cons.mp hmem with h | h
    · subst h
      have hany : rows.any (fun r => r.hruId == i) = false := by
        rw [List.any_eq_false]
        intro r hr
        simpa using habs r hr
      simp only [lapseAll, lapseLookup, hany]
      rfl
    · have ih := lapseAll_none_of_missing rate rows is i h habs
      simp only [lapseAll, ih]
      cases lapseLookup rate rows j <;> rfl

/-- Example forcing file with two HRUs and one timestep. -/
def exForcing : ForcingData :=
  { hruIds := [1, 2]
    airtemp := [[280, 281]]
    airtempUnits := "K"
    others := [("pptrate", [[1, 2]])] }

/-- Example intersection table covering both HRUs of exForcing. -/
def exRows : List IntersectRow := [⟨1, 1, 3, 1⟩, ⟨2, 1, 0, 0⟩]

/-- Example intersection table with no row for HRU 2. -/
def exRowsMissing : List IntersectRow := [⟨1, 1, 3, 1⟩]

/-- Example output of applyDatastepAndLapse on exRows and exForcing with
rate 1: HRU 1 receives correction 1 * 1 * (3 - 1) = 2, HRU 2 receives 0. -/
def exOut : SummaForcing :=
  ⟨⟨[1, 2], [[282, 281]], "K", [("pptrate", [[1, 2]])]⟩, 3600⟩

/-- C2: under APPLY_LAPSE_RATE the correction of an HRU equals the sum over
its intersection rows of weight * lapse_rate * (grid elevation - HRU
elevation), and this one scalar is added to the airtemp value of that HRU
at every timestep; with lapse rate -0.0065, grid elevation 500, HRU
elevation 1500 and weight 1 the correction is exactly +6.5. -/
theorem lapse_correction_formula (rate ds : ℚ) (rows : List IntersectRow)
    (d : ForcingData) (out : SummaForcing)
    (hout : applyDatastepAndLapse rate ds true rows d = some out)
    (hlen : ∀ row ∈ d.airtemp, d.hruIds.length ≤ row.length)
    (t h : Nat) (ht : t < d.airtemp.length) (hh : h < d.hruIds.length) :
    ((out.base.airtemp.getD t []).getD h 0
      = (d.airtemp.getD t []).getD h 0 + lapseSum rate rows (d.hruIds.getD h 0)) ∧
    lapseSum rate rows (d.hruIds.getD h 0)
      = ((rows.filter (fun r => r.hruId == d.hruIds.getD h 0)).map
          (fun r => r.weight * rate * (r.forcingElev - r.catchElev))).sum ∧
    lapseSum (-13/2000) [⟨1, 1, 500, 1500⟩] 1 = 13 / 2 := by
  refine ⟨?_, by rw [lapseSum]; rfl, by norm_num [lapseSum, lapseValue]⟩
  cases hcorr : lapseAll rate rows d.hruIds with
  | none =>
    rw [applyDatastepAndLapse, hcorr] at hout
    simp at hout
  | some corr =>
    rw [applyDatastepAndLapse, hcorr] at hout
    simp only [Option.some_inj] at hout
    have hcl : corr.length = d.hruIds.length := lapseAll_length rate rows d.hruIds corr hcorr
    have hrow : d.airtemp.getD t [] = d.airtemp[t] := List.getD_eq_getElem _ _ ht
    have hrowlen : d.hruIds.length ≤ (d.airtemp[t]).length :=
      hlen _ (List.getElem_mem ht)
    have hairtemp : out.base.airtemp = d.airtemp.map (fun ts => ts.zipWith (· + ·) corr) := by
      rw [← hout]
      simp
    rw [hairtemp]
    have htm : t < (d.airtemp.map (fun ts => ts.zipWith (· + ·) corr)).length := by
      simpa using ht
    rw [List.getD_eq_getElem _ _ htm, List.getElem_map]
    have hhz : h < (List.zipWith (· + ·) (d.airtemp[t]) corr).length := by
      rw [List.length_zipWith]
      omega
    rw [List.getD_eq_getElem _ _ hhz, List.getElem_zipWith]
    rw [hrow, List.getD_eq_getElem _ _ (by omega : h < (d.airtemp[t]).length)]
    have hcval := lapseAll_getD rate rows d.hruIds corr hcorr h hh
    rw [List.getD_eq_getElem _ _ (by omega : h < corr.length)] at hcval
    rw [hcval]

/-- Witness for C2 at a concrete file: HRU 1 with weight 1, grid elevation
3 and HRU elevation 1 under rate 1 is corrected by 2 at its only timestep,
and the spec example evaluates to 13/2. -/
theorem lapse_correction_formula_witness :
    ((exOut.base.airtemp.getD 0 []).getD 0 0
      = (exForcing.airtemp.getD 0 []).getD 0 0
          + lapseSum 1 exRows (exForcing.hruIds.getD 0 0)) ∧
    lapseSum 1 exRows (exForcing.hruIds.getD 0 0)
      = ((exRows.filter (fun r => r.hruId == exForcing.hruIds.getD 0 0)).map
          (fun r => r.weight * 1 * (r.forcingElev - r.catchElev))).sum ∧
    lapseSum (-13/2000) [⟨1, 1, 500, 1500⟩] 1 = 13 / 2 :=
  lapse_correction_formula 1 3600 exRows exForcing exOut
    (by norm_num [applyDatastepAndLapse, lapseAll, lapseLookup, lapseSum, lapseValue,
      exRows, exForcing, exOut])
    (by decide) 0 0 (by decide) (by decide)

/-- C9: every successfully processed file carries data_step equal to the
configured step whatever the lapse flag is, every variable except airtemp
and data_step is unchanged, airtemp is unchanged when APPLY_LAPSE_RATE is
not True, and the units attribute of airtemp is preserved. -/
theorem datastep_and_frame (rate ds : ℚ) (b : Bool) (rows : List IntersectRow)
    (d : ForcingData) (out : SummaForcing)
    (hout : applyDatastepAndLapse rate ds b rows d = some out) :
    out.dataStep = ds ∧ out.base.others = d.others ∧ out.base.hruIds = d.hruIds ∧
    out.base.airtempUnits = d.airtempUnits ∧
    out.base.airtemp.length = d.airtemp.length ∧
    (b ≠ true → out.base.airtemp = d.airtemp) := by
  cases hcorr : lapseAll rate rows d.hruIds with
  | none =>
    rw [applyDatastepAndLapse, hcorr] at hout
    simp at hout
  | some corr =>
    rw [applyDatastepAndLapse, hcorr] at hout
    simp only [Option.some_inj] at hout
    rw [← hout]
    refine ⟨rfl, rfl, rfl, rfl, ?_, ?_⟩
    · cases b <;> simp
    · intro hb
      have hb2 : b = false := by
        cases b
        · rfl
        · exact absurd rfl hb
      rw [hb2]
      simp

/-- Witness for C9 with the lapse flag off: data_step is added and the
dataset is otherwise returned unchanged. -/
theorem datastep_and_frame_witness :
    (⟨⟨[1, 2], [[280, 281]], "K", [("pptrate", [[1, 2]])]⟩, (3600 : ℚ)⟩
        : SummaForcing).dataStep = 3600 ∧
    (⟨⟨[1, 2], [[280, 281]], "K", [("pptrate", [[1, 2]])]⟩, (3600 : ℚ)⟩
        : SummaForcing).base.others = exForcing.others ∧
    (⟨⟨[1, 2], [[280, 281]], "K", [("pptrate", [[1, 2]])]⟩, (3600 : ℚ)⟩
        : SummaForcing).base.hruIds = exForcing.hruIds ∧
    (⟨⟨[1, 2], [[280, 281]], "K", [("pptrate", [[1, 2]])]⟩, (3600 : ℚ)⟩
        : SummaForcing).base.airtempUnits = exForcing.airtempUnits ∧
    (⟨⟨[1, 2], [[280, 281]], "K", [("pptrate", [[1, 2]])]⟩, (3600 : ℚ)⟩
        : SummaForcing).base.airtemp.length = exForcing.airtemp.length ∧
    (false ≠ true →
      (⟨⟨[1, 2], [[280, 281]], "K", [("pptrate", [[1, 2]])]⟩, (3600 : ℚ)⟩
        : SummaForcing).base.airtemp = exForcing.airtemp) :=
  datastep_and_frame 1 3600 false exRows exForcing
    ⟨⟨[1, 2], [[280, 281]], "K", [("pptrate", [[1, 2]])]⟩, 3600⟩
    (by norm_num [applyDatastepAndLapse, lapseAll, lapseLookup, lapseSum, lapseValue,
      exRows, exForcing])

/-- C7 counterexample: HRU 2 of exForcing has no intersection row, so the
pandas loc raises, the bare except skips the file, and no output dataset
exists at all, contradicting the claim that a zero correction is applied
and an output with an unchanged series is written. -/
theorem missing_hru_no_output :
    applyDatastepAndLapse 1 3600 true exRowsMissing exForcing = none ∧
    ¬ ∃ out : SummaForcing,
        applyDatastepAndLapse 1 3600 true exRowsMissing exForcing = some out := by
  refine ⟨rfl, ?_⟩
  rintro ⟨out, hout⟩
  rw [show applyDatastepAndLapse 1 3600 true exRowsMissing exForcing = none from rfl]
    at hout
  exact Option.noConfusion hout

/-- C7 (amended): for a forcing file whose hruId array contains an HRU
absent from the intersection table, one warning is logged and the file is
skipped entirely: no output is produced, so no zero correction is applied
either. -/
theorem missing_hru_skips_file (rate ds : ℚ) (b : Bool) (rows : List IntersectRow)
    (d : ForcingData) (i : ℤ) (hi : i ∈ d.hruIds) (habs : ∀ r ∈ rows, r.hruId ≠ i) :
    applyDatastepAndLapse rate ds b rows d = none ∧
    processFileWarnings rate rows d = 1 := by
  have hnone := lapseAll_none_of_missing rate rows d.hruIds i hi habs
  constructor
  · rw [applyDatastepAndLapse, hnone]
  · rw [processFileWarnings, hnone]

/-- Witness for the amended C7 at the concrete missing-row table. -/
theorem missing_hru_skips_file_witness :
    applyDatastepAndLapse 1 3600 true exRowsMissing exForcing = none ∧
    processFileWarnings 1 exRowsMissing exForcing = 1 :=
  missing_hru_skips_file 1 3600 true exRowsMissing exForcing 2 (by decide) (by decide)

/-! ## Categorical zonal statistics
(data_utils.py, calculate_soil_stats lines 391-434 and calculate_land_stats
lines 451-494; the two bodies are identical up to names)

The per-HRU categorical histogram is a table with one row per HRU and one
column per raster class (plus a count column, not modelled); a cell is None
when zonal_stats produced no value for that HRU and class.  The code sums
each class column over all HRUs (pandas sum skips NaN), takes idxmax (first
column attaining the maximal total) as the domain-wide modal class, and if
any cell of the table is NaN logs a single warning for the whole pass and
fills every NaN class cell with the modal class label. -/

/-- Column total over all HRUs, skipping missing cells like pandas sum. -/
def colSum (tbl : List (List (Option ℕ))) (c : Nat) : ℕ :=
  (tbl.map (fun row => (row.getD c none).getD 0)).sum

/-- Index of the first class column attaining the maximal total,
mirroring pandas idxmax. -/
def mostCommonCol (tbl : List (List (Option ℕ))) (width : Nat) : Nat :=
  argmaxFirst ((List.range width).map (fun c => (colSum tbl c : ℤ)))

/-- Label of the domain-wide modal class for a given list of class labels
aligned with the columns. -/
def mostCommonLabel (tbl : List (List (Option ℕ))) (labels : List ℕ) : ℕ :=
  labels.getD (mostCommonCol tbl labels.length) 0

/-- fillna over the class columns: every missing cell receives the modal
class label, present cells are unchanged. -/
def fillMissing (tbl : List (List (Option ℕ))) (m : ℕ) : List (List ℕ) :=
  tbl.map (fun row => row.map (fun cell => cell.getD m))

/-- Warnings logged by one pass: a single one when any cell is missing. -/
def statsWarnings (tbl : List (List (Option ℕ))) : Nat :=
  if tbl.any (fun row => row.any (fun cell => cell.isNone)) then 1 else 0

/-- Number of HRUs whose statistic is entirely missing (all cells None). -/
def allMissingRows (tbl : List (List (Option ℕ))) : Nat :=
  tbl.countP (fun row => row.all (fun cell => cell.isNone))

/-- Example table: two entirely missing HRUs and one populated HRU. -/
def exStatsTbl : List (List (Option ℕ)) :=
  [[none, none], [none, none], [some 3, some 1]]

/-- C8 counterexample: with two all-missing HRUs the pass logs a single
warning, not one warning per affected HRU as claimed. -/
theorem stats_one_warning_per_pass :
    statsWarnings exStatsTbl = 1 ∧ allMissingRows exStatsTbl = 2 ∧
    statsWarnings exStatsTbl ≠ allMissingRows exStatsTbl := by decide

/-- C8 (amended): whenever any cell of the categorical statistic table is
missing, calculate_soil_stats and calculate_land_stats log exactly one
warning for the whole pass (not one per affected HRU) and substitute the
domain-wide modal class label, the first label attaining the maximal column
total, into every missing cell, leaving present cells unchanged. -/
theorem stats_fallback (tbl : List (List (Option ℕ))) (labels : List ℕ)
    (hmiss : tbl.any (fun row => row.any (fun cell => cell.isNone)) = true) :
    statsWarnings tbl = 1 ∧
    (∀ r c, r < tbl.length → c < (tbl.getD r []).length →
      ((fillMissing tbl (mostCommonLabel tbl labels)).getD r []).getD c 0
        = ((tbl.getD r []).getD c none).getD (mostCommonLabel tbl labels)) ∧
    (0 < labels.length →
      mostCommonCol tbl labels.length < labels.length ∧
      (∀ c, c < labels.length →
        colSum tbl c ≤ colSum tbl (mostCommonCol tbl labels.length)) ∧
      (∀ c, c < mostCommonCol tbl labels.length →
        colSum tbl c < colSum tbl (mostCommonCol tbl labels.length))) := by
  refine ⟨by rw [statsWarnings, if_pos hmiss], ?_, ?_⟩
  · intro r c hr hc
    have hrow : tbl.getD r [] = tbl[r] := List.getD_eq_getElem _ _ hr
    have hrm : r < (fillMissing tbl (mostCommonLabel tbl labels)).length := by
      simpa [fillMissing] using hr
    rw [List.getD_eq_getElem _ _ hrm]
    simp only [fillMissing, List.getElem_map]
    rw [hrow] at hc ⊢
    have hcm : c < ((tbl[r]).map
        (fun cell => cell.getD (mostCommonLabel tbl labels))).length := by
      simpa using hc
    rw [List.getD_eq_getElem _ _ hcm, List.getElem_map,
      List.getD_eq_getElem _ _ hc]
  · intro hw
    have hlen : ((List.range labels.length).map
        (fun c => (colSum tbl c : ℤ))).length = labels.length := by simp
    have hne : (List.range labels.length).map (fun c => (colSum tbl c : ℤ)) ≠ [] := by
      intro h
      rw [h] at hlen
      simp at hlen
      omega
    have hmceq : mostCommonCol tbl labels.length
        = argmaxFirst ((List.range labels.length).map
            (fun c => (colSum tbl c : ℤ))) := rfl
    have hgd : ∀ c, c < labels.length →
        ((List.range labels.length).map (fun c => (colSum tbl c : ℤ))).getD c 0
          = (colSum tbl c : ℤ) :=
      fun c hc => getD_range_map labels.length _ c hc 0
    have hmc : mostCommonCol tbl labels.length < labels.length := by
      rw [hmceq]
      have := argmaxFirst_lt_length _ hne
      rwa [hlen] at this
    have hmaxv := getD_argmaxFirst _ hne
    rw [← hmceq, hgd _ hmc] at hmaxv
    refine ⟨hmc, ?_, ?_⟩
    · intro c hc
      have := getD_le_listMax ((List.range labels.length).map
        (fun c => (colSum tbl c : ℤ))) c (by omega)
      rw [hgd c hc, ← hmaxv] at this
      exact_mod_cast this
    · intro c hc
      have := getD_lt_listMax_of_lt_argmaxFirst ((List.range labels.length).map
        (fun c => (colSum tbl c : ℤ))) c (by rw [← hmceq]; exact hc)
      rw [hgd c (by omega), ← hmaxv] at this
      exact_mod_cast this

/-- Witness for the amended C8: on the example table with labels 4 and 9
the single warning fires, missing cells receive the modal label and the
modal column is the first one attaining the maximal total. -/
theorem stats_fallback_witness :
    statsWarnings exStatsTbl = 1 ∧
    (∀ r c, r < exStatsTbl.length → c < (exStatsTbl.getD r []).length →
      ((fillMissing exStatsTbl (mostCommonLabel exStatsTbl [4, 9])).getD r []).getD c 0
        = ((exStatsTbl.getD r []).getD c none).getD (mostCommonLabel exStatsTbl [4, 9])) ∧
    (0 < ([4, 9] : List ℕ).length →
      mostCommonCol exStatsTbl ([4, 9] : List ℕ).length < ([4, 9] : List ℕ).length ∧
      (∀ c, c < ([4, 9] : List ℕ).length →
        colSum exStatsTbl c
          ≤ colSum exStatsTbl (mostCommonCol exStatsTbl ([4, 9] : List ℕ).length)) ∧
      (∀ c, c < mostCommonCol exStatsTbl ([4, 9] : List ℕ).length →
        colSum exStatsTbl c
          < colSum exStatsTbl (mostCommonCol exStatsTbl ([4, 9] : List ℕ).length))) :=
  stats_fallback exStatsTbl [4, 9] (by decide)

/-! ## Contour length
(summa_utils.py, calculate_slope_and_contour lines 1550-1589,
calculate_contour_length lines 1591-1626, create_attributes_file lines
1653-1726)

create_attributes_file obtains (slope, contour length) per HRU exclusively
from calculate_slope_and_contour, which sets the contour length of every
HRU to sqrt of the polygon area (line 1553) and falls back to the default
pair (0.1, 30) when the HRU has no valid slope data.  The function
calculate_contour_length, which measures the geometric intersection with
the downstream neighbor and falls back to the bounding-box minimum
dimension both for an outlet and for an empty intersection, is never called
anywhere in the repository.  The geometric quantities of one HRU are
abstracted into a record. -/

/-- Geometric data of one HRU: polygon area, minimum dimension of the
bounding box, whether a downstream neighbor geometry exists, whether the
intersection with it is empty, the length of that intersection, and the
mean slope when zonal statistics produced one. -/
structure HruGeometry where
  area : ℝ
  boundsMinDim : ℝ
  hasDownstream : Bool
  interEmpty : Bool
  interLength : ℝ
  slopeMean : Option ℝ

/-- Per-HRU result of calculate_slope_and_contour: the default pair
(0.1, 30) without valid slope data, otherwise the mean slope paired with
sqrt of the polygon area. -/
noncomputable def slopeContourOf (g : HruGeometry) : ℝ × ℝ :=
  match g.slopeMean with
  | none => (0.1, 30)
  | some s => (s, Real.sqrt g.area)

/-- contourLength value written into the attributes file for one HRU
(create_attributes_file line 1726). -/
noncomputable def writtenContourLength (g : HruGeometry) : ℝ :=
  (slopeContourOf g).2

/-- Embedding of calculate_contour_length: bounding-box minimum dimension
for an outlet or an empty intersection, otherwise the intersection length.
No caller of this function exists in the repository. -/
noncomputable def calculateContourLength (g : HruGeometry) : ℝ :=
  if g.hasDownstream = false then g.boundsMinDim
  else if g.interEmpty = true then g.boundsMinDim
  else g.interLength

/-- Example HRU: area 4, a downstream neighbor with a nonempty boundary
intersection of length 10, and valid slope data. -/
noncomputable def contourEx : HruGeometry :=
  { area := 4
    boundsMinDim := 1
    hasDownstream := true
    interEmpty := false
    interLength := 10
    slopeMean := some (1 / 2) }

/-- C6 counterexample: for an HRU of area 4 whose downstream boundary
intersection has length 10, the attributes file records contour length
sqrt 4 = 2, not the intersection length 10: create_attributes_file takes
its contour lengths from calculate_slope_and_contour and never calls
calculate_contour_length. -/
theorem contour_written_ne_intersection :
    writtenContourLength contourEx = 2 ∧ calculateContourLength contourEx = 10 ∧
    writtenContourLength contourEx ≠ calculateContourLength contourEx := by
  have h2 : writtenContourLength contourEx = 2 := by
    have : writtenContourLength contourEx = Real.sqrt 4 := by
      simp [writtenContourLength, slopeContourOf, contourEx]
    rw [this, show (4 : ℝ) = 2 ^ 2 by norm_num, Real.sqrt_sq (by norm_num : (0 : ℝ) ≤ 2)]
  have h10 : calculateContourLength contourEx = 10 := by
    simp [calculateContourLength, contourEx]
  refine ⟨h2, h10, ?_⟩
  rw [h2, h10]
  norm_num

/-- C6 (amended): the contourLength written to the attributes file is
sqrt of the HRU area whenever valid slope data exists and the default 30
otherwise; the never-invoked calculate_contour_length returns the
bounding-box minimum dimension both when no downstream geometry exists and
when the intersection with the named neighbor is empty, and the geometric
intersection length otherwise. -/
theorem contour_length_written (g : HruGeometry) (s : ℝ) :
    (g.slopeMean = some s → writtenContourLength g = Real.sqrt g.area) ∧
    (g.slopeMean = none → writtenContourLength g = 30) ∧
    (g.hasDownstream = false → calculateContourLength g = g.boundsMinDim) ∧
    (g.hasDownstream = true → g.interEmpty = true →
      calculateContourLength g = g.boundsMinDim) ∧
    (g.hasDownstream = true → g.interEmpty = false →
      calculateContourLength g = g.interLength) := by
  refine ⟨?_, ?_, ?_, ?_, ?_⟩
  · intro hs
    rw [writtenContourLength, slopeContourOf, hs]
  · intro hs
    rw [writtenContourLength, slopeContourOf, hs]
  · intro hd
    rw [calculateContourLength, if_pos hd]
  · intro hd he
    rw [calculateContourLength, if_neg (by rw [hd]; simp), if_pos he]
  · intro hd he
    rw [calculateContourLength, if_neg (by rw [hd]; simp), if_neg (by rw [he]; simp)]

/-- Witness for the amended C6 at the example HRU with valid slope data. -/
theorem contour_length_written_witness :
    (contourEx.slopeMean = some (1 / 2) →
      writtenContourLength contourEx = Real.sqrt contourEx.area) ∧
    (contourEx.slopeMean = none → writtenContourLength contourEx = 30) ∧
    (contourEx.hasDownstream = false →
      calculateContourLength contourEx = contourEx.boundsMinDim) ∧
    (contourEx.hasDownstream = true → contourEx.interEmpty = true →
      calculateContourLength contourEx = contourEx.boundsMinDim) ∧
    (contourEx.hasDownstream = true → contourEx.interEmpty = false →
      calculateContourLength contourEx = contourEx.interLength) :=
  contour_length_written contourEx (1 / 2)

end Confluence
